import Mathlib

/-!
Shallow embedding of `src/rust/src/enip/detect.rs` (Suricata ENIP/CIP
detection keywords) and verification of its specification claims.

Machine integers (`u8`, `u16`, `u32`, `c_int`) are embedded as `Nat` / `Int`;
width constraints that Rust enforces by typing appear as explicit hypotheses
where a claim depends on them.
-/

namespace EnipDetect

/-- One CIP request-path segment, from the parser data model
(`segment_type: u8`, `value: u32`). -/
structure CipSegment where
  segment_type : Nat
  value : Nat
deriving DecidableEq, Repr

mutual

/-- Modelled from the spec: `CipData` of the parser module (not under `src/`):
a `service` byte plus direction-tagged content. -/
inductive CipData : Type where
  | mk : Nat → CipDir → CipData

/-- Modelled from the spec: `CipDir` of the parser module. The `request`
constructor carries the request's `path` and `payload` fields of
`EnipCipRequest`; the `response` constructor carries `status`,
`status_extended` (a byte sequence) and `payload` of `EnipCipResponse`. -/
inductive CipDir : Type where
  | none : CipDir
  | request : List CipSegment → EnipCipRequestPayload → CipDir
  | response : Nat → List Nat → EnipCipResponsePayload → CipDir

/-- Modelled from the spec: request payload variants
(`GetAttributeList { attr_list }`, `SetAttributeList { first_attr }`,
`Multiple { packet_list }`, other). The attribute ids are 16-bit on the wire. -/
inductive EnipCipRequestPayload : Type where
  | getAttributeList : List Nat → EnipCipRequestPayload
  | setAttributeList : Option Nat → EnipCipRequestPayload
  | multiple : List CipData → EnipCipRequestPayload
  | other : EnipCipRequestPayload

/-- Modelled from the spec: response payload variants
(`Multiple { packet_list }`, other). -/
inductive EnipCipResponsePayload : Type where
  | multiple : List CipData → EnipCipResponsePayload
  | other : EnipCipResponsePayload

end

/-- Field accessor for `CipData.service`. -/
def CipData.service : CipData → Nat
  | .mk s _ => s

/-- Field accessor for `CipData.cipdir`. -/
def CipData.cipdir : CipData → CipDir
  | .mk _ d => d

/-- Modelled from the spec: the reserved CIP "Multiple Service Packet" service
code `CIP_MULTIPLE_SERVICE` of the parser module (0x0a). -/
def CIP_MULTIPLE_SERVICE : Nat := 0x0a

/-- Modelled from the spec: the host engine's opaque numeric-predicate
capability `DetectUintData<T>`, represented by its evaluation function. -/
def DetectUintData : Type := Nat → Bool

/-- Modelled from the spec: `detect_match_uint` evaluates the opaque numeric
predicate on a value. -/
def detect_match_uint (ctx : DetectUintData) (v : Nat) : Bool := ctx v

/-- The compound cip_service predicate `DetectCipServiceData`
(`service: u8`, `class: Option<u32>`, `attribute: Option<u32>`). -/
structure DetectCipServiceData where
  service : Nat
  «class» : Option Nat
  «attribute» : Option Nat
deriving DecidableEq, Repr

/-- Embedding of `enip_cip_has_attribute` (detect.rs lines 120-146): request
path segments with `segment_type >> 2 == 12`, then the GetAttributeList /
SetAttributeList fallbacks (ids widened from u16 by `u32::from`). -/
def enip_cip_has_attribute (cipdir : CipDir) (attr : Nat) : Int :=
  match cipdir with
  | .request path payload =>
    if path.any (fun seg => seg.segment_type >>> 2 == 12 && seg.value == attr) then 1
    else
      match payload with
      | .getAttributeList attr_list =>
        if attr_list.any (fun attrg => attr == attrg) then 1 else 0
      | .setAttributeList first_attr =>
        match first_attr with
        | some val => if attr == val then 1 else 0
        | Option.none => 0
      | _ => 0
  | _ => 0

/-- Embedding of `enip_cip_has_class` (detect.rs lines 148-157): request path
segments with `segment_type >> 2 == 8` and the wanted value. -/
def enip_cip_has_class (cipdir : CipDir) (cls : Nat) : Bool :=
  match cipdir with
  | .request path _ =>
    path.any (fun seg => seg.segment_type >>> 2 == 8 && seg.value == cls)
  | _ => false

mutual

/-- Embedding of `enip_cip_match_service` (detect.rs lines 159-195). -/
def enip_cip_match_service (d : CipData) (ctx : DetectCipServiceData) : Int :=
  match d with
  | .mk service cipdir =>
    if service = ctx.service then
      match ctx.«class» with
      | some cls =>
        if enip_cip_has_class cipdir cls then
          match ctx.«attribute» with
          | some attr => enip_cip_has_attribute cipdir attr
          | Option.none => 1
        else 0
      | Option.none => 1
    else if service = CIP_MULTIPLE_SERVICE then
      match cipdir with
      | .request _ (.multiple m) => enip_cip_match_service_list m ctx
      | .response _ _ (.multiple m) => enip_cip_match_service_list m ctx
      | _ => 0
    else 0

/-- The `for p in m.packet_list` loop of `enip_cip_match_service`: return 1 at
the first sub-entry that matches, else 0. -/
def enip_cip_match_service_list (l : List CipData) (ctx : DetectCipServiceData) : Int :=
  match l with
  | [] => 0
  | p :: rest =>
    if enip_cip_match_service p ctx = 1 then 1
    else enip_cip_match_service_list rest ctx

end

mutual

/-- Embedding of `enip_cip_match_status` (detect.rs lines 217-231). -/
def enip_cip_match_status (d : CipData) (ctx : DetectUintData) : Int :=
  match d with
  | .mk _ (.response status _ payload) =>
    if detect_match_uint ctx status then 1
    else
      match payload with
      | .multiple m => enip_cip_match_status_list m ctx
      | _ => 0
  | _ => 0

/-- The `for p in m.packet_list` loop of `enip_cip_match_status`. -/
def enip_cip_match_status_list (l : List CipData) (ctx : DetectUintData) : Int :=
  match l with
  | [] => 0
  | p :: rest =>
    if enip_cip_match_status p ctx = 1 then 1
    else enip_cip_match_status_list rest ctx

end

/-- The `let val` line of `enip_cip_match_extendedstatus` (detect.rs line 249):
`(status_extended[1] << 8) | status_extended[0]`, evaluated only under the
length-2 guard. -/
def extendedstatus_val (ext : List Nat) : Nat :=
  ((ext.getD 1 0) <<< 8) ||| (ext.getD 0 0)

mutual

/-- Embedding of `enip_cip_match_extendedstatus` (detect.rs lines 246-263). -/
def enip_cip_match_extendedstatus (d : CipData) (ctx : DetectUintData) : Int :=
  match d with
  | .mk _ (.response _ status_extended payload) =>
    if status_extended.length = 2 ∧ detect_match_uint ctx (extendedstatus_val status_extended) then 1
    else
      match payload with
      | .multiple m => enip_cip_match_extendedstatus_list m ctx
      | _ => 0
  | _ => 0

/-- The `for p in m.packet_list` loop of `enip_cip_match_extendedstatus`. -/
def enip_cip_match_extendedstatus_list (l : List CipData) (ctx : DetectUintData) : Int :=
  match l with
  | [] => 0
  | p :: rest =>
    if enip_cip_match_extendedstatus p ctx = 1 then 1
    else enip_cip_match_extendedstatus_list rest ctx

end

mutual

/-- Embedding of `enip_cip_match_segment` (detect.rs lines 291-309). -/
def enip_cip_match_segment (d : CipData) (ctx : DetectUintData) (segment_type : Nat) : Int :=
  match d with
  | .mk _ (.request path payload) =>
    if path.any (fun seg => seg.segment_type >>> 2 == segment_type && detect_match_uint ctx seg.value) then 1
    else
      match payload with
      | .multiple m => enip_cip_match_segment_list m ctx segment_type
      | _ => 0
  | _ => 0

/-- The `for p in m.packet_list` loop of `enip_cip_match_segment`. -/
def enip_cip_match_segment_list (l : List CipData) (ctx : DetectUintData) (segment_type : Nat) : Int :=
  match l with
  | [] => 0
  | p :: rest =>
    if enip_cip_match_segment p ctx segment_type = 1 then 1
    else enip_cip_match_segment_list rest ctx segment_type

end

mutual

/-- Embedding of `enip_cip_match_attribute` (detect.rs lines 326-359). -/
def enip_cip_match_attribute (d : CipData) (ctx : DetectUintData) : Int :=
  match d with
  | .mk _ (.request path payload) =>
    if path.any (fun seg => seg.segment_type >>> 2 == 12 && detect_match_uint ctx seg.value) then 1
    else
      match payload with
      | .getAttributeList attr_list =>
        if attr_list.any (fun attrg => detect_match_uint ctx attrg) then 1 else 0
      | .setAttributeList first_attr =>
        match first_attr with
        | some val => if detect_match_uint ctx val then 1 else 0
        | Option.none => 0
      | .multiple m => enip_cip_match_attribute_list m ctx
      | .other => 0
  | _ => 0

/-- The `for p in m.packet_list` loop of `enip_cip_match_attribute`. -/
def enip_cip_match_attribute_list (l : List CipData) (ctx : DetectUintData) : Int :=
  match l with
  | [] => 0
  | p :: rest =>
    if enip_cip_match_attribute p ctx = 1 then 1
    else enip_cip_match_attribute_list rest ctx

end

/-- Modelled from the spec: identity payload of a ListIdentity reply item
(fields used by detect.rs; `product_name` is a byte sequence). -/
structure EnipIdentityItem where
  protocol_version : Nat
  vendor_id : Nat
  device_type : Nat
  product_code : Nat
  revision_major : Nat
  revision_minor : Nat
  status : Nat
  serial : Nat
  product_name : List Nat
  state : Nat
deriving DecidableEq, Repr

/-- Modelled from the spec: services payload of a ListServices reply item
(`service_name` is a byte sequence). -/
structure EnipServicesItem where
  protocol_version : Nat
  capabilities : Nat
  service_name : List Nat
deriving DecidableEq, Repr

/-- Modelled from the spec: `EnipItemPayload` variants of the parser module.
The `data` constructor carries the `cip` field of the Data item. -/
inductive EnipItemPayload : Type where
  | identity : EnipIdentityItem → EnipItemPayload
  | services : EnipServicesItem → EnipItemPayload
  | data : CipData → EnipItemPayload
  | unparsed : EnipItemPayload

/-- Modelled from the spec: one item of an ENIP item list; only its `payload`
field is read by detect.rs. -/
structure EnipItem where
  payload : EnipItemPayload

/-- Modelled from the spec: the Cip payload of an ENIP PDU, an ordered item
list (`items`). -/
structure EnipCip where
  items : List EnipItem

/-- Modelled from the spec: RegisterSession payload (`protocol_version`). -/
structure EnipRegisterSession where
  protocol_version : Nat
deriving DecidableEq, Repr

/-- Modelled from the spec: `EnipPayload` variants of the parser module. -/
inductive EnipPayload : Type where
  | cip : EnipCip → EnipPayload
  | registerSession : EnipRegisterSession → EnipPayload
  | listServices : List EnipItem → EnipPayload
  | listIdentity : List EnipItem → EnipPayload
  | unparsed : EnipPayload

/-- Modelled from the spec: ENIP encapsulation header; detect.rs reads
`cmd` (u16) and `status` (u32). -/
structure EnipHeader where
  cmd : Nat
  status : Nat
deriving DecidableEq, Repr

/-- Modelled from the spec: one ENIP PDU: header plus payload. -/
structure EnipPdu where
  header : EnipHeader
  payload : EnipPayload

/-- Modelled from the spec: `EnipTransaction`, holding an optional request PDU
and an optional response PDU. -/
structure EnipTransaction where
  request : Option EnipPdu
  response : Option EnipPdu

/-- Modelled from the spec: the host `Direction` (to-server carries requests,
to-client carries responses); the `u8` flags conversion is host-side. -/
inductive Direction : Type where
  | toServer : Direction
  | toClient : Direction
deriving DecidableEq, Repr

/-- The `for item in c.items` loop of `enip_tx_has_cip_service`: return at
the first Data item with its decision. -/
def enip_tx_has_cip_service_loop (items : List EnipItem) (ctx : DetectCipServiceData) : Int :=
  match items with
  | [] => 0
  | item :: rest =>
    match item.payload with
    | .data d => enip_cip_match_service d ctx
    | _ => enip_tx_has_cip_service_loop rest ctx

/-- Embedding of `enip_tx_has_cip_service` (detect.rs lines 197-215). -/
def enip_tx_has_cip_service (tx : EnipTransaction) (direction : Direction)
    (ctx : DetectCipServiceData) : Int :=
  let pduo := if direction = Direction.toServer then tx.request else tx.response
  match pduo with
  | some pdu =>
    match pdu.payload with
    | .cip c => enip_tx_has_cip_service_loop c.items ctx
    | _ => 0
  | Option.none => 0

/-- The `for item in c.items` loop of `enip_tx_has_cip_status`. -/
def enip_tx_has_cip_status_loop (items : List EnipItem) (ctx : DetectUintData) : Int :=
  match items with
  | [] => 0
  | item :: rest =>
    match item.payload with
    | .data d => enip_cip_match_status d ctx
    | _ => enip_tx_has_cip_status_loop rest ctx

/-- Embedding of `enip_tx_has_cip_status` (detect.rs lines 233-244): always
inspects the response PDU. -/
def enip_tx_has_cip_status (tx : EnipTransaction) (ctx : DetectUintData) : Int :=
  match tx.response with
  | some pdu =>
    match pdu.payload with
    | .cip c => enip_tx_has_cip_status_loop c.items ctx
    | _ => 0
  | Option.none => 0

/-- The `for item in c.items` loop of `enip_tx_has_cip_extendedstatus`. -/
def enip_tx_has_cip_extendedstatus_loop (items : List EnipItem) (ctx : DetectUintData) : Int :=
  match items with
  | [] => 0
  | item :: rest =>
    match item.payload with
    | .data d => enip_cip_match_extendedstatus d ctx
    | _ => enip_tx_has_cip_extendedstatus_loop rest ctx

/-- Embedding of `enip_tx_has_cip_extendedstatus` (detect.rs lines 265-278):
always inspects the response PDU. -/
def enip_tx_has_cip_extendedstatus (tx : EnipTransaction) (ctx : DetectUintData) : Int :=
  match tx.response with
  | some pdu =>
    match pdu.payload with
    | .cip c => enip_tx_has_cip_extendedstatus_loop c.items ctx
    | _ => 0
  | Option.none => 0

/-- The `for item in c.items` loop of `enip_tx_has_cip_segment`. -/
def enip_tx_has_cip_segment_loop (items : List EnipItem) (ctx : DetectUintData)
    (segment_type : Nat) : Int :=
  match items with
  | [] => 0
  | item :: rest =>
    match item.payload with
    | .data d => enip_cip_match_segment d ctx segment_type
    | _ => enip_tx_has_cip_segment_loop rest ctx segment_type

/-- Embedding of `enip_tx_has_cip_segment` (detect.rs lines 311-324): always
inspects the request PDU. -/
def enip_tx_has_cip_segment (tx : EnipTransaction) (ctx : DetectUintData)
    (segment_type : Nat) : Int :=
  match tx.request with
  | some pdu =>
    match pdu.payload with
    | .cip c => enip_tx_has_cip_segment_loop c.items ctx segment_type
    | _ => 0
  | Option.none => 0

/-- The `for item in c.items` loop of `enip_tx_has_cip_attribute`. -/
def enip_tx_has_cip_attribute_loop (items : List EnipItem) (ctx : DetectUintData) : Int :=
  match items with
  | [] => 0
  | item :: rest =>
    match item.payload with
    | .data d => enip_cip_match_attribute d ctx
    | _ => enip_tx_has_cip_attribute_loop rest ctx

/-- Embedding of `enip_tx_has_cip_attribute` (detect.rs lines 361-374): always
inspects the request PDU. -/
def enip_tx_has_cip_attribute (tx : EnipTransaction) (ctx : DetectUintData) : Int :=
  match tx.request with
  | some pdu =>
    match pdu.payload with
    | .cip c => enip_tx_has_cip_attribute_loop c.items ctx
    | _ => 0
  | Option.none => 0

/-- Embedding of `enip_get_status` (detect.rs lines 280-289). -/
def enip_get_status (tx : EnipTransaction) (direction : Direction) : Option Nat :=
  if direction = Direction.toServer then
    match tx.request with
    | some req => some req.header.status
    | Option.none => Option.none
  else
    match tx.response with
    | some resp => some resp.header.status
    | Option.none => Option.none

/-- Embedding of `tx_get_command` (detect.rs lines 1129-1139); the `u8` flag
to `Direction` conversion of the source is host-side. -/
def tx_get_command (tx : EnipTransaction) (direction : Direction) : Option Nat :=
  if direction = Direction.toServer then
    match tx.request with
    | some req => some req.header.cmd
    | Option.none => Option.none
  else
    match tx.response with
    | some resp => some resp.header.cmd
    | Option.none => Option.none

/-- Embedding of `tx_get_revision` (detect.rs lines 862-873): combine
`revision_major` and `revision_minor` of the first ListIdentity item. -/
def tx_get_revision (tx : EnipTransaction) : Option Nat :=
  match tx.response with
  | some response =>
    match response.payload with
    | .listIdentity lip =>
      match lip with
      | [] => Option.none
      | li0 :: _ =>
        match li0.payload with
        | .identity li => some ((li.revision_major <<< 8) ||| li.revision_minor)
        | _ => Option.none
    | _ => Option.none
  | Option.none => Option.none

/-- Embedding of `product_name_get_data` (detect.rs lines 1291-1309), with the
out-pointer/length pair modelled as `Option (List Nat) × Nat` (a null buffer is
`none`); the Rust `len() as u32` cast appears as `% 2 ^ 32`. -/
def product_name_get_data (tx : EnipTransaction) : Bool × Option (List Nat) × Nat :=
  match tx.response with
  | some response =>
    match response.payload with
    | .listIdentity lip =>
      match lip with
      | [] => (false, Option.none, 0)
      | li0 :: _ =>
        match li0.payload with
        | .identity li => (true, some li.product_name, li.product_name.length % 2 ^ 32)
        | _ => (false, Option.none, 0)
    | _ => (false, Option.none, 0)
  | Option.none => (false, Option.none, 0)

/-- Embedding of `service_name_get_data` (detect.rs lines 1323-1341), modelled
like `product_name_get_data`. -/
def service_name_get_data (tx : EnipTransaction) : Bool × Option (List Nat) × Nat :=
  match tx.response with
  | some response =>
    match response.payload with
    | .listServices lsp =>
      match lsp with
      | [] => (false, Option.none, 0)
      | ls0 :: _ =>
        match ls0.payload with
        | .services ls => (true, some ls.service_name, ls.service_name.length % 2 ^ 32)
        | _ => (false, Option.none, 0)
    | _ => (false, Option.none, 0)
  | Option.none => (false, Option.none, 0)

/-- The character class of nom's `space0` (ASCII space and tab). -/
def isSpaceChar (c : Char) : Bool := c == ' ' || c == '\t'

/-- Embedding of nom's `space0`: consume leading spaces/tabs. -/
def space0 (i : List Char) : List Char := i.dropWhile isSpaceChar

/-- Embedding of nom's `digit1`: consume one or more ASCII digits, failing on
zero digits; returns the digits and the remainder. -/
def digit1 (i : List Char) : Option (List Char × List Char) :=
  match i.takeWhile Char.isDigit with
  | [] => Option.none
  | ds => some (ds, i.dropWhile Char.isDigit)

/-- Numeric value of a digit string, as Rust's `str::parse` computes it. -/
def digitsVal (ds : List Char) : Nat :=
  ds.foldl (fun acc c => acc * 10 + (c.toNat - 48)) 0

/-- The closing steps of `enip_parse_cip_service` (detect.rs lines 106-117):
strip trailing whitespace and fail unless the remainder is empty. -/
def enip_parse_end (input : List Char) (data : DetectCipServiceData) :
    Option (List Char × DetectCipServiceData) :=
  let i := space0 input
  if i.isEmpty then some (i, data) else Option.none

/-- Embedding of nom's `opt(char(c))`: consume `c` when it heads the input,
returning the optional consumed character and the remainder. -/
def opt_char (c : Char) (i : List Char) : Option Char × List Char :=
  match i with
  | c2 :: t => if c2 = c then (some c, t) else (Option.none, i)
  | [] => (Option.none, i)

/-- Embedding of `enip_parse_cip_service` (detect.rs lines 79-118): grammar
`ws service ws ("," ws class ws ("," ws "!"? attribute)?)? ws`, where the
service must parse as `u8` and be below 0x80, class/attribute as `u32`, and a
leading `!` on the attribute drops the attribute constraint. -/
def enip_parse_cip_service (input : List Char) : Option (List Char × DetectCipServiceData) :=
  let i := space0 input
  match digit1 i with
  | Option.none => Option.none
  | some (ds, i1) =>
    match if digitsVal ds ≤ 255 then some (digitsVal ds) else Option.none with
    | Option.none => Option.none
    | some service =>
      if service < 0x80 then
        let c1 := opt_char ',' (space0 i1)
        if c1.1.isSome then
          match digit1 (space0 c1.2) with
          | Option.none => Option.none
          | some (ds2, i5) =>
            match if digitsVal ds2 < 2 ^ 32 then some (digitsVal ds2) else Option.none with
            | Option.none => Option.none
            | some class1 =>
              let c2 := opt_char ',' (space0 i5)
              if c2.1.isSome then
                let neg := opt_char '!' (space0 c2.2)
                match digit1 neg.2 with
                | Option.none => Option.none
                | some (ds3, i10) =>
                  match if digitsVal ds3 < 2 ^ 32 then some (digitsVal ds3) else Option.none with
                  | Option.none => Option.none
                  | some attr1 =>
                    enip_parse_end i10
                      ⟨service, some class1, if neg.1.isSome then Option.none else some attr1⟩
              else enip_parse_end c2.2 ⟨service, some class1, Option.none⟩
        else enip_parse_end c1.2 ⟨service, Option.none, Option.none⟩
      else Option.none

/-- Spec-side helper: the request path of a CipData, empty when the data is
not a request. -/
def requestPath : CipData → List CipSegment
  | .mk _ (.request path _) => path
  | _ => []

/-- Spec-side helper: the request payload of a CipData, when it is a request. -/
def requestPayload : CipData → Option EnipCipRequestPayload
  | .mk _ (.request _ payload) => some payload
  | _ => Option.none

/-- Written from the spec's words for the direct (non-recursive) cip_service
check: the service byte must equal the predicate's; a class constraint needs a
path segment with `segment_type>>2 == 8` and the class value; an attribute
constraint (only inspected once class matched) needs a path segment with
`segment_type>>2 == 12` and the attribute value, or the attribute id in a
GetAttributeList `attr_list`, or equal to a SetAttributeList `first_attr`. -/
def cipServiceDirectSpec (d : CipData) (ctx : DetectCipServiceData) : Prop :=
  d.service = ctx.service ∧
  (match ctx.«class» with
   | Option.none => True
   | some cls =>
     (∃ seg ∈ requestPath d, seg.segment_type >>> 2 = 8 ∧ seg.value = cls) ∧
     (match ctx.«attribute» with
      | Option.none => True
      | some attr =>
        (∃ seg ∈ requestPath d, seg.segment_type >>> 2 = 12 ∧ seg.value = attr) ∨
        (∃ l, requestPayload d = some (.getAttributeList l) ∧ attr ∈ l) ∨
        requestPayload d = some (.setAttributeList (some attr))))

/-- Spec-side helper: the first Data item of an ENIP item list, if any. -/
def firstDataItem : List EnipItem → Option CipData
  | [] => Option.none
  | item :: rest =>
    match item.payload with
    | .data d => some d
    | _ => firstDataItem rest

/-- Spec-side helper: head-of-list predicate failure, used to delimit token
boundaries in parser lemmas. -/
def headIsNot (p : Char → Bool) (l : List Char) : Prop :=
  ∀ c, l.head? = some c → p c = false

mutual

/-- Spec-side well-formedness for C9: every attribute id stored in a
GetAttributeList / SetAttributeList payload (recursively, through Multiple
envelopes) fits in 16 bits, as the Rust `u16` typing guarantees. -/
def cipAttrIdsFit16 (d : CipData) : Bool :=
  match d with
  | .mk _ (.request _ payload) =>
    match payload with
    | .getAttributeList attr_list => attr_list.all (fun a => decide (a < 2 ^ 16))
    | .setAttributeList first_attr =>
      match first_attr with
      | some val => decide (val < 2 ^ 16)
      | Option.none => true
    | .multiple m => cipAttrIdsFit16_list m
    | .other => true
  | .mk _ (.response _ _ payload) =>
    match payload with
    | .multiple m => cipAttrIdsFit16_list m
    | .other => true
  | _ => true

/-- List form of `cipAttrIdsFit16` over a Multiple packet list. -/
def cipAttrIdsFit16_list (l : List CipData) : Bool :=
  match l with
  | [] => true
  | p :: rest => cipAttrIdsFit16 p && cipAttrIdsFit16_list rest

end

/-! ### Helper lemmas -/

theorem mul_two_pow_or_eq_add : ∀ (n a b : Nat), b < 2 ^ n → (a * 2 ^ n) ||| b = a * 2 ^ n + b := by
  intro n
  induction n with
  | zero =>
    intro a b h
    interval_cases b
    simp
  | succ n ih =>
    intro a b h
    have hq : b / 2 < 2 ^ n := by
      have h2 : 2 ^ (n + 1) = 2 ^ n * 2 := pow_succ 2 n
      omega
    have hdiv : ((a * 2 ^ (n + 1)) ||| b) / 2 = (a * 2 ^ n) ||| (b / 2) := by
      rw [Nat.or_div_two]
      congr 1
      rw [pow_succ, ← Nat.mul_assoc]
      exact Nat.mul_div_cancel _ (by omega)
    have ihq : (a * 2 ^ n) ||| (b / 2) = a * 2 ^ n + b / 2 := ih a (b / 2) hq
    have h0 : (a * 2 ^ (n + 1)) % 2 = 0 := by
      rw [pow_succ, ← Nat.mul_assoc]
      exact Nat.mul_mod_left _ 2
    have hmod : ((a * 2 ^ (n + 1)) ||| b) % 2 = b % 2 := by
      rcases Nat.mod_two_eq_zero_or_one b with hb | hb
      · rcases Nat.mod_two_eq_zero_or_one ((a * 2 ^ (n + 1)) ||| b) with hL | hL
        · omega
        · rcases Nat.or_mod_two_eq_one.mp hL with h1 | h1 <;> omega
      · have hL : ((a * 2 ^ (n + 1)) ||| b) % 2 = 1 := Nat.or_mod_two_eq_one.mpr (Or.inr hb)
        omega
    have hrec := Nat.div_add_mod ((a * 2 ^ (n + 1)) ||| b) 2
    have hb2 := Nat.div_add_mod b 2
    have hA : a * 2 ^ (n + 1) = a * 2 ^ n * 2 := by
      rw [pow_succ, Nat.mul_assoc]
    rw [hdiv, ihq, hmod] at hrec
    rw [hA] at hrec ⊢
    omega

theorem shiftLeft8_or_eq_add (hi lo : Nat) (h : lo < 256) :
    (hi <<< 8) ||| lo = hi * 256 + lo := by
  rw [Nat.shiftLeft_eq]
  exact mul_two_pow_or_eq_add 8 hi lo h

theorem enip_cip_match_service_list_eq_one_iff (l : List CipData) (ctx : DetectCipServiceData) :
    enip_cip_match_service_list l ctx = 1 ↔ ∃ p ∈ l, enip_cip_match_service p ctx = 1 := by
  induction l with
  | nil => simp [enip_cip_match_service_list]
  | cons p rest ih =>
    by_cases h : enip_cip_match_service p ctx = 1
    · simp [enip_cip_match_service_list, h]
    · simp [enip_cip_match_service_list, h, ih]

theorem enip_cip_match_status_list_eq_one_iff (l : List CipData) (ctx : DetectUintData) :
    enip_cip_match_status_list l ctx = 1 ↔ ∃ p ∈ l, enip_cip_match_status p ctx = 1 := by
  induction l with
  | nil => simp [enip_cip_match_status_list]
  | cons p rest ih =>
    by_cases h : enip_cip_match_status p ctx = 1
    · simp [enip_cip_match_status_list, h]
    · simp [enip_cip_match_status_list, h, ih]

theorem enip_cip_match_extendedstatus_list_eq_one_iff (l : List CipData) (ctx : DetectUintData) :
    enip_cip_match_extendedstatus_list l ctx = 1 ↔
      ∃ p ∈ l, enip_cip_match_extendedstatus p ctx = 1 := by
  induction l with
  | nil => simp [enip_cip_match_extendedstatus_list]
  | cons p rest ih =>
    by_cases h : enip_cip_match_extendedstatus p ctx = 1
    · simp [enip_cip_match_extendedstatus_list, h]
    · simp [enip_cip_match_extendedstatus_list, h, ih]

theorem enip_cip_match_segment_list_eq_one_iff (l : List CipData) (ctx : DetectUintData)
    (t : Nat) :
    enip_cip_match_segment_list l ctx t = 1 ↔ ∃ p ∈ l, enip_cip_match_segment p ctx t = 1 := by
  induction l with
  | nil => simp [enip_cip_match_segment_list]
  | cons p rest ih =>
    by_cases h : enip_cip_match_segment p ctx t = 1
    · simp [enip_cip_match_segment_list, h]
    · simp [enip_cip_match_segment_list, h, ih]

theorem enip_cip_has_class_eq_true_iff (d : CipData) (cls : Nat) :
    enip_cip_has_class d.cipdir cls = true ↔
      ∃ seg ∈ requestPath d, seg.segment_type >>> 2 = 8 ∧ seg.value = cls := by
  obtain ⟨sv, cipdir⟩ := d
  cases cipdir <;>
    simp [enip_cip_has_class, requestPath, CipData.cipdir, List.any_eq_true]

theorem enip_cip_has_attribute_eq_one_iff (d : CipData) (attr : Nat) :
    enip_cip_has_attribute d.cipdir attr = 1 ↔
      (∃ seg ∈ requestPath d, seg.segment_type >>> 2 = 12 ∧ seg.value = attr) ∨
      (∃ l, requestPayload d = some (.getAttributeList l) ∧ attr ∈ l) ∨
      requestPayload d = some (.setAttributeList (some attr)) := by
  obtain ⟨sv, cipdir⟩ := d
  cases cipdir with
  | none => simp [enip_cip_has_attribute, CipData.cipdir, requestPath, requestPayload]
  | response st ext payload =>
    simp [enip_cip_has_attribute, CipData.cipdir, requestPath, requestPayload]
  | request path payload =>
    simp only [enip_cip_has_attribute, CipData.cipdir, requestPath, requestPayload,
      Option.some.injEq]
    by_cases hA : (path.any fun seg => seg.segment_type >>> 2 == 12 && seg.value == attr) = true
    · rw [if_pos hA]
      simp only [List.any_eq_true, Bool.and_eq_true, beq_iff_eq] at hA
      obtain ⟨seg, hseg, h12, hval⟩ := hA
      constructor
      · intro _
        exact Or.inl ⟨seg, hseg, h12, hval⟩
      · intro _
        rfl
    · rw [if_neg hA]
      simp only [List.any_eq_true, Bool.and_eq_true, beq_iff_eq, not_exists, not_and] at hA
      cases payload with
      | getAttributeList attr_list =>
        dsimp only
        by_cases hB : (attr_list.any fun attrg => attr == attrg) = true
        · rw [if_pos hB]
          simp only [List.any_eq_true, beq_iff_eq] at hB
          obtain ⟨a, ha, hae⟩ := hB
          constructor
          · intro _
            exact Or.inr (Or.inl ⟨attr_list, rfl, hae ▸ ha⟩)
          · intro _
            rfl
        · rw [if_neg hB]
          simp only [List.any_eq_true, beq_iff_eq, not_exists, not_and] at hB
          constructor
          · intro h01
            exact absurd h01 (by norm_num)
          · rintro (⟨seg, hs, h12, hv⟩ | ⟨l, hl, hmem⟩ | hset)
            · exact absurd hv (hA seg hs h12)
            · cases hl
              exact absurd rfl (hB attr hmem)
            · cases hset
      | setAttributeList first_attr =>
        cases first_attr with
        | none =>
          dsimp only
          constructor
          · intro h01
            exact absurd h01 (by norm_num)
          · rintro (⟨seg, hs, h12, hv⟩ | ⟨l, hl, hmem⟩ | hset)
            · exact absurd hv (hA seg hs h12)
            · cases hl
            · exact absurd hset (by simp)
        | some val =>
          dsimp only
          by_cases hv : attr = val
          · subst hv
            simp
          · rw [if_neg (by simpa using hv)]
            constructor
            · intro h01
              exact absurd h01 (by norm_num)
            · rintro (⟨seg, hs, h12, hvv⟩ | ⟨l, hl, hmem⟩ | hset)
              · exact absurd hvv (hA seg hs h12)
              · cases hl
              · injection hset with h1
                injection h1 with h2
                exact absurd h2.symm hv
      | multiple m =>
        dsimp only
        constructor
        · intro h01
          exact absurd h01 (by norm_num)
        · rintro (⟨seg, hs, h12, hvv⟩ | ⟨l, hl, hmem⟩ | hset)
          · exact absurd hvv (hA seg hs h12)
          · cases hl
          · cases hset
      | other =>
        dsimp only
        constructor
        · intro h01
          exact absurd h01 (by norm_num)
        · rintro (⟨seg, hs, h12, hvv⟩ | ⟨l, hl, hmem⟩ | hset)
          · exact absurd hvv (hA seg hs h12)
          · cases hl
          · cases hset

theorem enip_tx_has_cip_service_loop_eq (items : List EnipItem) (ctx : DetectCipServiceData) :
    enip_tx_has_cip_service_loop items ctx =
      match firstDataItem items with
      | some d => enip_cip_match_service d ctx
      | Option.none => 0 := by
  induction items with
  | nil => rfl
  | cons item rest ih =>
    cases h : item.payload <;>
      simp [enip_tx_has_cip_service_loop, firstDataItem, h, ih]

theorem enip_tx_has_cip_status_loop_eq (items : List EnipItem) (ctx : DetectUintData) :
    enip_tx_has_cip_status_loop items ctx =
      match firstDataItem items with
      | some d => enip_cip_match_status d ctx
      | Option.none => 0 := by
  induction items with
  | nil => rfl
  | cons item rest ih =>
    cases h : item.payload <;>
      simp [enip_tx_has_cip_status_loop, firstDataItem, h, ih]

theorem enip_tx_has_cip_extendedstatus_loop_eq (items : List EnipItem) (ctx : DetectUintData) :
    enip_tx_has_cip_extendedstatus_loop items ctx =
      match firstDataItem items with
      | some d => enip_cip_match_extendedstatus d ctx
      | Option.none => 0 := by
  induction items with
  | nil => rfl
  | cons item rest ih =>
    cases h : item.payload <;>
      simp [enip_tx_has_cip_extendedstatus_loop, firstDataItem, h, ih]

theorem enip_tx_has_cip_segment_loop_eq (items : List EnipItem) (ctx : DetectUintData)
    (t : Nat) :
    enip_tx_has_cip_segment_loop items ctx t =
      match firstDataItem items with
      | some d => enip_cip_match_segment d ctx t
      | Option.none => 0 := by
  induction items with
  | nil => rfl
  | cons item rest ih =>
    cases h : item.payload <;>
      simp [enip_tx_has_cip_segment_loop, firstDataItem, h, ih]

theorem enip_tx_has_cip_attribute_loop_eq (items : List EnipItem) (ctx : DetectUintData) :
    enip_tx_has_cip_attribute_loop items ctx =
      match firstDataItem items with
      | some d => enip_cip_match_attribute d ctx
      | Option.none => 0 := by
  induction items with
  | nil => rfl
  | cons item rest ih =>
    cases h : item.payload <;>
      simp [enip_tx_has_cip_attribute_loop, firstDataItem, h, ih]

theorem isSpaceChar_eq_false_of_isDigit {c : Char} (h : c.isDigit = true) :
    isSpaceChar c = false := by
  simp only [isSpaceChar, Bool.or_eq_false_iff, beq_eq_false_iff_ne, ne_eq]
  constructor
  · rintro rfl
    exact absurd h (by decide)
  · rintro rfl
    exact absurd h (by decide)

theorem space0_eq_self (l : List Char) (h : headIsNot isSpaceChar l) : space0 l = l := by
  cases l with
  | nil => rfl
  | cons c t => simp [space0, List.dropWhile_cons, h c rfl]

theorem takeWhile_append_of_all {p : Char → Bool} :
    ∀ (ds rest : List Char), (∀ c ∈ ds, p c = true) → headIsNot p rest →
      (ds ++ rest).takeWhile p = ds := by
  intro ds
  induction ds with
  | nil =>
    intro rest h1 h2
    cases rest with
    | nil => rfl
    | cons c t => simp [List.takeWhile_cons, h2 c rfl]
  | cons c t ih =>
    intro rest h1 h2
    simp [List.takeWhile_cons, h1 c (by simp),
      ih rest (fun x hx => h1 x (by simp [hx])) h2]

theorem dropWhile_append_of_all {p : Char → Bool} :
    ∀ (ds rest : List Char), (∀ c ∈ ds, p c = true) → headIsNot p rest →
      (ds ++ rest).dropWhile p = rest := by
  intro ds
  induction ds with
  | nil =>
    intro rest h1 h2
    cases rest with
    | nil => rfl
    | cons c t => simp [List.dropWhile_cons, h2 c rfl]
  | cons c t ih =>
    intro rest h1 h2
    simp [List.dropWhile_cons, h1 c (by simp),
      ih rest (fun x hx => h1 x (by simp [hx])) h2]

theorem digit1_append (ds rest : List Char) (h0 : ds ≠ [])
    (h1 : ∀ c ∈ ds, c.isDigit = true) (h2 : headIsNot Char.isDigit rest) :
    digit1 (ds ++ rest) = some (ds, rest) := by
  unfold digit1
  rw [takeWhile_append_of_all ds rest h1 h2, dropWhile_append_of_all ds rest h1 h2]
  cases ds with
  | nil => exact absurd rfl h0
  | cons c t => rfl

theorem space0_eq_self_of_digits (ds rest : List Char) (h0 : ds ≠ [])
    (h1 : ∀ c ∈ ds, c.isDigit = true) : space0 (ds ++ rest) = ds ++ rest := by
  apply space0_eq_self
  intro c hc
  cases ds with
  | nil => exact absurd rfl h0
  | cons c0 t =>
    simp only [List.cons_append, List.head?_cons, Option.some.injEq] at hc
    subst hc
    exact isSpaceChar_eq_false_of_isDigit (h1 c0 (by simp))

/-! ### Claim theorems -/

/-- C5: every transaction-level CIP matcher locates the Cip payload of the
PDU appropriate to its family (cip_service by the evaluation direction;
cip_status and cip_extendedstatus the response; the segment and attribute
matchers the request) and evaluates exactly the first Data item of its item
list, later Data items never being consulted; when the PDU is absent, the
payload is not Cip, or no Data item exists, the matcher returns 0 and never
signals an error. -/
theorem enip_claim5_first_data_item_only :
    (∀ (tx : EnipTransaction) (dir : Direction) (ctx : DetectCipServiceData),
      enip_tx_has_cip_service tx dir ctx =
        match (if dir = Direction.toServer then tx.request else tx.response) with
        | some pdu =>
          match pdu.payload with
          | .cip c =>
            (match firstDataItem c.items with
             | some d => enip_cip_match_service d ctx
             | Option.none => 0)
          | _ => 0
        | Option.none => 0) ∧
    (∀ (tx : EnipTransaction) (ctx : DetectUintData),
      enip_tx_has_cip_status tx ctx =
        match tx.response with
        | some pdu =>
          match pdu.payload with
          | .cip c =>
            (match firstDataItem c.items with
             | some d => enip_cip_match_status d ctx
             | Option.none => 0)
          | _ => 0
        | Option.none => 0) ∧
    (∀ (tx : EnipTransaction) (ctx : DetectUintData),
      enip_tx_has_cip_extendedstatus tx ctx =
        match tx.response with
        | some pdu =>
          match pdu.payload with
          | .cip c =>
            (match firstDataItem c.items with
             | some d => enip_cip_match_extendedstatus d ctx
             | Option.none => 0)
          | _ => 0
        | Option.none => 0) ∧
    (∀ (tx : EnipTransaction) (ctx : DetectUintData) (t : Nat),
      enip_tx_has_cip_segment tx ctx t =
        match tx.request with
        | some pdu =>
          match pdu.payload with
          | .cip c =>
            (match firstDataItem c.items with
             | some d => enip_cip_match_segment d ctx t
             | Option.none => 0)
          | _ => 0
        | Option.none => 0) ∧
    (∀ (tx : EnipTransaction) (ctx : DetectUintData),
      enip_tx_has_cip_attribute tx ctx =
        match tx.request with
        | some pdu =>
          match pdu.payload with
          | .cip c =>
            (match firstDataItem c.items with
             | some d => enip_cip_match_attribute d ctx
             | Option.none => 0)
          | _ => 0
        | Option.none => 0) := by
  refine ⟨?_, ?_, ?_, ?_, ?_⟩
  · intro tx dir ctx
    cases hpdu : (if dir = Direction.toServer then tx.request else tx.response) with
    | none => simp [enip_tx_has_cip_service, hpdu]
    | some pdu =>
      cases hp : pdu.payload <;>
        simp [enip_tx_has_cip_service, hpdu, hp, enip_tx_has_cip_service_loop_eq]
  · intro tx ctx
    cases hpdu : tx.response with
    | none => simp [enip_tx_has_cip_status, hpdu]
    | some pdu =>
      cases hp : pdu.payload <;>
        simp [enip_tx_has_cip_status, hpdu, hp, enip_tx_has_cip_status_loop_eq]
  · intro tx ctx
    cases hpdu : tx.response with
    | none => simp [enip_tx_has_cip_extendedstatus, hpdu]
    | some pdu =>
      cases hp : pdu.payload <;>
        simp [enip_tx_has_cip_extendedstatus, hpdu, hp, enip_tx_has_cip_extendedstatus_loop_eq]
  · intro tx ctx t
    cases hpdu : tx.request with
    | none => simp [enip_tx_has_cip_segment, hpdu]
    | some pdu =>
      cases hp : pdu.payload <;>
        simp [enip_tx_has_cip_segment, hpdu, hp, enip_tx_has_cip_segment_loop_eq]
  · intro tx ctx
    cases hpdu : tx.request with
    | none => simp [enip_tx_has_cip_attribute, hpdu]
    | some pdu =>
      cases hp : pdu.payload <;>
        simp [enip_tx_has_cip_attribute, hpdu, hp, enip_tx_has_cip_attribute_loop_eq]

/-- C6: command and top-level status extraction read the request PDU header
under to-server evaluation and the response PDU header under to-client
evaluation, yielding no value when the selected-direction PDU is absent. -/
theorem enip_claim6_direction_selection :
    ∀ tx : EnipTransaction,
      tx_get_command tx Direction.toServer = (tx.request.map fun req => req.header.cmd) ∧
      tx_get_command tx Direction.toClient = (tx.response.map fun resp => resp.header.cmd) ∧
      enip_get_status tx Direction.toServer = (tx.request.map fun req => req.header.status) ∧
      enip_get_status tx Direction.toClient = (tx.response.map fun resp => resp.header.status) := by
  intro tx
  refine ⟨?_, ?_, ?_, ?_⟩
  · cases h : tx.request <;> simp [tx_get_command, h]
  · cases h : tx.response <;> simp [tx_get_command, h]
  · cases h : tx.request <;> simp [enip_get_status, h]
  · cases h : tx.response <;> simp [enip_get_status, h]

/-- C8: when the response is a ListIdentity reply whose non-empty item list
starts with an Identity payload, the extracted revision is the single 16-bit
value `(revision_major << 8) | revision_minor` (equal to
`256 * major + minor`, below 65536 for byte-sized fields); in every other
case revision extraction yields no value. -/
theorem enip_claim8_revision_combination :
    (∀ (tx : EnipTransaction) (pdu : EnipPdu) (li0 : EnipItem) (rest : List EnipItem)
       (li : EnipIdentityItem),
      tx.response = some pdu → pdu.payload = .listIdentity (li0 :: rest) →
      li0.payload = .identity li → li.revision_minor < 256 →
      tx_get_revision tx = some (256 * li.revision_major + li.revision_minor) ∧
      (li.revision_major < 256 → 256 * li.revision_major + li.revision_minor < 65536)) ∧
    (∀ tx : EnipTransaction,
      (∀ (pdu : EnipPdu) (li0 : EnipItem) (rest : List EnipItem) (li : EnipIdentityItem),
        ¬(tx.response = some pdu ∧ pdu.payload = .listIdentity (li0 :: rest) ∧
          li0.payload = .identity li)) →
      tx_get_revision tx = Option.none) := by
  constructor
  · intro tx pdu li0 rest li h1 h2 h3 hmi
    constructor
    · simp only [tx_get_revision, h1, h2, h3]
      rw [shiftLeft8_or_eq_add _ _ hmi]
      ring_nf
    · intro hma
      omega
  · intro tx habs
    cases h1 : tx.response with
    | none => simp [tx_get_revision, h1]
    | some pdu =>
      cases h2 : pdu.payload with
      | listIdentity lip =>
        cases lip with
        | nil => simp [tx_get_revision, h1, h2]
        | cons li0 rest =>
          cases h3 : li0.payload with
          | identity li => exact absurd ⟨h1, h2, h3⟩ (habs pdu li0 rest li)
          | services ls => simp [tx_get_revision, h1, h2, h3]
          | data d => simp [tx_get_revision, h1, h2, h3]
          | unparsed => simp [tx_get_revision, h1, h2, h3]
      | cip c => simp [tx_get_revision, h1, h2]
      | registerSession rs => simp [tx_get_revision, h1, h2]
      | listServices lsp => simp [tx_get_revision, h1, h2]
      | unparsed => simp [tx_get_revision, h1, h2]

/-- Witness for C8: a ListIdentity response with revision_major 1 and
revision_minor 5 yields the combined revision 0x0105. -/
theorem enip_claim8_revision_combination_witness :
    tx_get_revision
      ⟨Option.none,
       some ⟨⟨0, 0⟩, .listIdentity [⟨.identity ⟨0, 0, 0, 0, 1, 5, 0, 0, [], 0⟩⟩]⟩⟩ =
      some 0x0105 := by
  have h := enip_claim8_revision_combination.1
    ⟨Option.none,
     some ⟨⟨0, 0⟩, .listIdentity [⟨.identity ⟨0, 0, 0, 0, 1, 5, 0, 0, [], 0⟩⟩]⟩⟩
    ⟨⟨0, 0⟩, .listIdentity [⟨.identity ⟨0, 0, 0, 0, 1, 5, 0, 0, [], 0⟩⟩]⟩
    ⟨.identity ⟨0, 0, 0, 0, 1, 5, 0, 0, [], 0⟩⟩ []
    ⟨0, 0, 0, 0, 1, 5, 0, 0, [], 0⟩ rfl rfl rfl (by norm_num)
  exact h.1

/-- C4: for a response whose status_extended is exactly the two bytes
[lo, hi], the value the extended-status matcher tests against the numeric
predicate is `hi * 256 + lo` (little-endian 16-bit combination); for any
status_extended whose length differs from 2, the direct extended-status
check is skipped entirely, so it never matches. -/
theorem enip_claim4_extendedstatus_little_endian :
    (∀ (sv st lo hi : Nat) (p : EnipCipResponsePayload) (ctx : DetectUintData),
      lo < 256 →
      enip_cip_match_extendedstatus (.mk sv (.response st [lo, hi] p)) ctx =
        (if detect_match_uint ctx (hi * 256 + lo) then 1
         else
           match p with
           | .multiple m => enip_cip_match_extendedstatus_list m ctx
           | .other => 0)) ∧
    (∀ (sv st : Nat) (ext : List Nat) (p : EnipCipResponsePayload) (ctx : DetectUintData),
      ext.length ≠ 2 →
      enip_cip_match_extendedstatus (.mk sv (.response st ext p)) ctx =
        (match p with
         | .multiple m => enip_cip_match_extendedstatus_list m ctx
         | .other => 0)) := by
  constructor
  · intro sv st lo hi p ctx hlo
    have hv : extendedstatus_val [lo, hi] = hi * 256 + lo := by
      show (hi <<< 8) ||| lo = hi * 256 + lo
      exact shiftLeft8_or_eq_add hi lo hlo
    by_cases hm : detect_match_uint ctx (hi * 256 + lo) = true
    · cases p <;> simp [enip_cip_match_extendedstatus, hv, hm]
    · simp only [Bool.not_eq_true] at hm
      cases p <;> simp [enip_cip_match_extendedstatus, hv, hm]
  · intro sv st ext p ctx hlen
    cases p <;> simp [enip_cip_match_extendedstatus, hlen]

/-- Witness for C4: with bytes [0x34, 0x12] the tested value is 0x1234, and a
three-byte extended status bypasses the direct check. -/
theorem enip_claim4_extendedstatus_little_endian_witness :
    enip_cip_match_extendedstatus (.mk 0 (.response 1 [0x34, 0x12] .other))
        (fun v => v == 0x1234) =
      (if detect_match_uint (fun v => v == 0x1234) (0x12 * 256 + 0x34) then 1 else 0) ∧
    enip_cip_match_extendedstatus (.mk 0 (.response 1 [1, 2, 3] .other))
        (fun _ => true) = 0 := by
  constructor
  · exact enip_claim4_extendedstatus_little_endian.1 0 1 0x34 0x12 .other
      (fun v => v == 0x1234) (by norm_num)
  · exact enip_claim4_extendedstatus_little_endian.2 0 1 [1, 2, 3] .other
      (fun _ => true) (by norm_num)

/-- C10: the product_name (resp. service_name) sticky-buffer extractor
returns true with exactly the stored byte slice and its length when the
response PDU exists and its payload is a ListIdentity (resp. ListServices)
whose first item carries an Identity (resp. Services) payload; in every other
case it returns false with a null buffer and length 0. -/
theorem enip_claim10_name_buffers :
    (∀ (tx : EnipTransaction) (pdu : EnipPdu) (li0 : EnipItem) (rest : List EnipItem)
       (li : EnipIdentityItem),
      tx.response = some pdu → pdu.payload = .listIdentity (li0 :: rest) →
      li0.payload = .identity li → li.product_name.length < 2 ^ 32 →
      product_name_get_data tx = (true, some li.product_name, li.product_name.length)) ∧
    (∀ tx : EnipTransaction,
      (∀ (pdu : EnipPdu) (li0 : EnipItem) (rest : List EnipItem) (li : EnipIdentityItem),
        ¬(tx.response = some pdu ∧ pdu.payload = .listIdentity (li0 :: rest) ∧
          li0.payload = .identity li)) →
      product_name_get_data tx = (false, Option.none, 0)) ∧
    (∀ (tx : EnipTransaction) (pdu : EnipPdu) (ls0 : EnipItem) (rest : List EnipItem)
       (ls : EnipServicesItem),
      tx.response = some pdu → pdu.payload = .listServices (ls0 :: rest) →
      ls0.payload = .services ls → ls.service_name.length < 2 ^ 32 →
      service_name_get_data tx = (true, some ls.service_name, ls.service_name.length)) ∧
    (∀ tx : EnipTransaction,
      (∀ (pdu : EnipPdu) (ls0 : EnipItem) (rest : List EnipItem) (ls : EnipServicesItem),
        ¬(tx.response = some pdu ∧ pdu.payload = .listServices (ls0 :: rest) ∧
          ls0.payload = .services ls)) →
      service_name_get_data tx = (false, Option.none, 0)) := by
  refine ⟨?_, ?_, ?_, ?_⟩
  · intro tx pdu li0 rest li h1 h2 h3 hlen
    simp only [product_name_get_data, h1, h2, h3]
    rw [Nat.mod_eq_of_lt hlen]
  · intro tx habs
    cases h1 : tx.response with
    | none => simp [product_name_get_data, h1]
    | some pdu =>
      cases h2 : pdu.payload with
      | listIdentity lip =>
        cases lip with
        | nil => simp [product_name_get_data, h1, h2]
        | cons li0 rest =>
          cases h3 : li0.payload with
          | identity li => exact absurd ⟨h1, h2, h3⟩ (habs pdu li0 rest li)
          | services ls => simp [product_name_get_data, h1, h2, h3]
          | data d => simp [product_name_get_data, h1, h2, h3]
          | unparsed => simp [product_name_get_data, h1, h2, h3]
      | cip c => simp [product_name_get_data, h1, h2]
      | registerSession rs => simp [product_name_get_data, h1, h2]
      | listServices lsp => simp [product_name_get_data, h1, h2]
      | unparsed => simp [product_name_get_data, h1, h2]
  · intro tx pdu ls0 rest ls h1 h2 h3 hlen
    simp only [service_name_get_data, h1, h2, h3]
    rw [Nat.mod_eq_of_lt hlen]
  · intro tx habs
    cases h1 : tx.response with
    | none => simp [service_name_get_data, h1]
    | some pdu =>
      cases h2 : pdu.payload with
      | listServices lsp =>
        cases lsp with
        | nil => simp [service_name_get_data, h1, h2]
        | cons ls0 rest =>
          cases h3 : ls0.payload with
          | services ls => exact absurd ⟨h1, h2, h3⟩ (habs pdu ls0 rest ls)
          | identity li => simp [service_name_get_data, h1, h2, h3]
          | data d => simp [service_name_get_data, h1, h2, h3]
          | unparsed => simp [service_name_get_data, h1, h2, h3]
      | cip c => simp [service_name_get_data, h1, h2]
      | registerSession rs => simp [service_name_get_data, h1, h2]
      | listIdentity lip => simp [service_name_get_data, h1, h2]
      | unparsed => simp [service_name_get_data, h1, h2]

/-- Witness for C10: a ListIdentity response with stored product name bytes
[65, 66] yields (true, the bytes, 2), and an empty transaction yields
(false, null, 0). -/
theorem enip_claim10_name_buffers_witness :
    product_name_get_data
      ⟨Option.none,
       some ⟨⟨0, 0⟩, .listIdentity [⟨.identity ⟨0, 0, 0, 0, 1, 5, 0, 0, [65, 66], 0⟩⟩]⟩⟩ =
      (true, some [65, 66], 2) ∧
    service_name_get_data ⟨Option.none, Option.none⟩ = (false, Option.none, 0) := by
  constructor
  · exact enip_claim10_name_buffers.1
      ⟨Option.none,
       some ⟨⟨0, 0⟩, .listIdentity [⟨.identity ⟨0, 0, 0, 0, 1, 5, 0, 0, [65, 66], 0⟩⟩]⟩⟩
      ⟨⟨0, 0⟩, .listIdentity [⟨.identity ⟨0, 0, 0, 0, 1, 5, 0, 0, [65, 66], 0⟩⟩]⟩
      ⟨.identity ⟨0, 0, 0, 0, 1, 5, 0, 0, [65, 66], 0⟩⟩ []
      ⟨0, 0, 0, 0, 1, 5, 0, 0, [65, 66], 0⟩ rfl rfl rfl (by norm_num)
  · exact (enip_claim10_name_buffers.2.2.2) ⟨Option.none, Option.none⟩
      (by intro pdu ls0 rest ls hcontra; simp at hcontra)

/-- Spec-side helper: the packet list of a Multiple payload in either
direction, if present. -/
def multiplePacketList : CipDir → Option (List CipData)
  | .request _ (.multiple m) => some m
  | .response _ _ (.multiple m) => some m
  | _ => Option.none

/-- Counterexample to C1 as stated: the predicate `service=10, class=2` (10
being CIP_MULTIPLE_SERVICE, an admissible rule service), applied to a Multiple
envelope whose own path lacks class 2 but whose first packet-list entry
matches directly. The direct check fails and the envelope's service equals
CIP_MULTIPLE_SERVICE, yet the matcher returns 0: no recursion into the packet
list happens, because the code only recurses when `d.service` differs from the
predicate's service. -/
theorem enip_claim1_multiple_recursion_cex :
    enip_cip_match_service
        (.mk CIP_MULTIPLE_SERVICE
          (.request [⟨32, 5⟩] (.multiple [.mk 10 (.request [⟨32, 2⟩] .other)])))
        ⟨10, some 2, Option.none⟩ = 0 ∧
    CIP_MULTIPLE_SERVICE = 10 ∧
    enip_cip_has_class
        (CipDir.request [⟨32, 5⟩] (.multiple [.mk 10 (.request [⟨32, 2⟩] .other)])) 2 = false ∧
    enip_cip_match_service (.mk 10 (.request [⟨32, 2⟩] .other)) ⟨10, some 2, Option.none⟩ = 1 := by
  refine ⟨rfl, rfl, rfl, rfl⟩

/-- C1 (amended): in the service family, when the direct check fails because
the service byte differs from the predicate's, recursion into the Multiple
packet list happens exactly when `service = CIP_MULTIPLE_SERVICE` (when the
service byte equals the predicate's, the match is decided by the direct check
alone, with no recursion even for a failing Multiple envelope); in the status,
extended-status and path-segment families, once the direct check fails the
match succeeds exactly when the direction-appropriate payload is a Multiple
whose packet list contains a matching entry. Entries are tried in order with
short-circuiting OR, so a matching entry k succeeds regardless of the number
of entries and of failures of earlier entries. -/
theorem enip_claim1_multiple_recursion :
    (∀ (sv : Nat) (cipdir : CipDir) (ctx : DetectCipServiceData),
      sv ≠ ctx.service →
      (enip_cip_match_service (.mk sv cipdir) ctx = 1 ↔
        (sv = CIP_MULTIPLE_SERVICE ∧
         ∃ m, multiplePacketList cipdir = some m ∧
           ∃ p ∈ m, enip_cip_match_service p ctx = 1))) ∧
    (∀ (sv st : Nat) (ext : List Nat) (p : EnipCipResponsePayload) (ctx : DetectUintData),
      detect_match_uint ctx st = false →
      (enip_cip_match_status (.mk sv (.response st ext p)) ctx = 1 ↔
        ∃ m, p = .multiple m ∧ ∃ q ∈ m, enip_cip_match_status q ctx = 1)) ∧
    (∀ (sv st : Nat) (ext : List Nat) (p : EnipCipResponsePayload) (ctx : DetectUintData),
      ¬(ext.length = 2 ∧ detect_match_uint ctx (extendedstatus_val ext) = true) →
      (enip_cip_match_extendedstatus (.mk sv (.response st ext p)) ctx = 1 ↔
        ∃ m, p = .multiple m ∧ ∃ q ∈ m, enip_cip_match_extendedstatus q ctx = 1)) ∧
    (∀ (sv : Nat) (path : List CipSegment) (payload : EnipCipRequestPayload)
       (ctx : DetectUintData) (t : Nat),
      (path.any fun seg => seg.segment_type >>> 2 == t && detect_match_uint ctx seg.value) = false →
      (enip_cip_match_segment (.mk sv (.request path payload)) ctx t = 1 ↔
        ∃ m, payload = .multiple m ∧ ∃ q ∈ m, enip_cip_match_segment q ctx t = 1)) := by
  refine ⟨?_, ?_, ?_, ?_⟩
  · intro sv cipdir ctx hs
    cases cipdir with
    | none =>
      simp [enip_cip_match_service, if_neg hs, multiplePacketList]
    | request path payload =>
      cases payload with
      | multiple m =>
        by_cases hmul : sv = CIP_MULTIPLE_SERVICE
        · have hs2 : CIP_MULTIPLE_SERVICE ≠ ctx.service := hmul ▸ hs
          simp [enip_cip_match_service, if_neg hs2, hmul, multiplePacketList,
            enip_cip_match_service_list_eq_one_iff]
        · simp [enip_cip_match_service, if_neg hs, if_neg hmul, hmul, multiplePacketList]
      | getAttributeList l => simp [enip_cip_match_service, if_neg hs, multiplePacketList]
      | setAttributeList fa => simp [enip_cip_match_service, if_neg hs, multiplePacketList]
      | other => simp [enip_cip_match_service, if_neg hs, multiplePacketList]
    | response st ext payload =>
      cases payload with
      | multiple m =>
        by_cases hmul : sv = CIP_MULTIPLE_SERVICE
        · have hs2 : CIP_MULTIPLE_SERVICE ≠ ctx.service := hmul ▸ hs
          simp [enip_cip_match_service, if_neg hs2, hmul, multiplePacketList,
            enip_cip_match_service_list_eq_one_iff]
        · simp [enip_cip_match_service, if_neg hs, if_neg hmul, hmul, multiplePacketList]
      | other => simp [enip_cip_match_service, if_neg hs, multiplePacketList]
  · intro sv st ext p ctx hdirect
    cases p with
    | multiple m =>
      simp [enip_cip_match_status, hdirect, enip_cip_match_status_list_eq_one_iff]
    | other => simp [enip_cip_match_status, hdirect]
  · intro sv st ext p ctx hdirect
    cases p with
    | multiple m =>
      simp only [enip_cip_match_extendedstatus, if_neg hdirect]
      simp [enip_cip_match_extendedstatus_list_eq_one_iff]
    | other =>
      simp only [enip_cip_match_extendedstatus, if_neg hdirect]
      simp
  · intro sv path payload ctx t hdirect
    cases payload with
    | multiple m =>
      simp [enip_cip_match_segment, hdirect, enip_cip_match_segment_list_eq_one_iff]
    | getAttributeList l => simp [enip_cip_match_segment, hdirect]
    | setAttributeList fa => simp [enip_cip_match_segment, hdirect]
    | other => simp [enip_cip_match_segment, hdirect]

/-- Witness for C1 (amended): a Multiple envelope with service 0x0a under a
predicate for service 5 succeeds through its second packet-list entry even
though the first fails, and a failing status direct check recurses into a
Multiple response payload. -/
theorem enip_claim1_multiple_recursion_witness :
    (enip_cip_match_service
        (.mk CIP_MULTIPLE_SERVICE
          (.request []
            (.multiple [.mk 7 (.request [] .other), .mk 5 (.request [] .other)])))
        ⟨5, Option.none, Option.none⟩ = 1 ↔
      (CIP_MULTIPLE_SERVICE = 5 ∨ True)) ∧
    (enip_cip_match_status
        (.mk 9 (.response 3 [] (.multiple [.mk 0 (.response 7 [] .other)])))
        (fun v => v == 7) = 1 ↔ True) := by
  constructor
  · have h := enip_claim1_multiple_recursion.1 CIP_MULTIPLE_SERVICE
      (.request [] (.multiple [.mk 7 (.request [] .other), .mk 5 (.request [] .other)]))
      ⟨5, Option.none, Option.none⟩ (by decide)
    rw [h]
    constructor
    · intro _
      exact Or.inr trivial
    · intro _
      exact ⟨rfl, [.mk 7 (.request [] .other), .mk 5 (.request [] .other)], rfl,
        .mk 5 (.request [] .other), by simp, rfl⟩
  · have h := enip_claim1_multiple_recursion.2.1 9 3 []
      (.multiple [.mk 0 (.response 7 [] .other)]) (fun v => v == 7) (by decide)
    rw [h]
    constructor
    · intro _
      trivial
    · intro _
      exact ⟨[.mk 0 (.response 7 [] .other)], rfl, .mk 0 (.response 7 [] .other), by simp, rfl⟩

theorem enip_cip_match_service_of_eq (sv : Nat) (cipdir : CipDir)
    (ctx : DetectCipServiceData) (hs : sv = ctx.service) :
    enip_cip_match_service (.mk sv cipdir) ctx =
      (match ctx.«class» with
       | some cls =>
         if enip_cip_has_class cipdir cls then
           match ctx.«attribute» with
           | some attr => enip_cip_has_attribute cipdir attr
           | Option.none => 1
         else 0
       | Option.none => 1) := by
  subst hs
  cases cipdir with
  | none => simp [enip_cip_match_service]
  | request path payload => cases payload <;> simp [enip_cip_match_service]
  | response st ext payload => cases payload <;> simp [enip_cip_match_service]

/-- C2: for every CipData and cip_service predicate, the direct
(non-recursive) service check succeeds exactly as the spec describes: the
service byte must equal the predicate's; a class constraint requires a path
segment with `segment_type>>2 == 8` and the class value; an attribute
constraint (inspected only once class matched) requires a type-12 path
segment with the attribute value, or the id in a GetAttributeList attr_list,
or equality with a SetAttributeList first_attr; with no class constraint the
service equality alone suffices. The hypothesis excludes only the case where
the match is decided by Multiple-envelope recursion instead of the direct
check. -/
theorem enip_claim2_direct_service_check (d : CipData) (ctx : DetectCipServiceData)
    (h : d.service = ctx.service ∨ d.service ≠ CIP_MULTIPLE_SERVICE) :
    enip_cip_match_service d ctx = 1 ↔ cipServiceDirectSpec d ctx := by
  obtain ⟨sv, cipdir⟩ := d
  simp only [CipData.service] at h
  by_cases hs : sv = ctx.service
  · subst hs
    rw [enip_cip_match_service_of_eq ctx.service cipdir ctx rfl]
    have hcl := fun cls => enip_cip_has_class_eq_true_iff (CipData.mk ctx.service cipdir) cls
    have hat := fun attr => enip_cip_has_attribute_eq_one_iff (CipData.mk ctx.service cipdir) attr
    simp only [CipData.cipdir] at hcl hat
    cases hc : ctx.«class» with
    | none => simp [cipServiceDirectSpec, CipData.service, hc]
    | some cls =>
      cases ha : ctx.«attribute» with
      | none =>
        by_cases hclv : enip_cip_has_class cipdir cls = true
        · simp [cipServiceDirectSpec, CipData.service, hc, ha, hclv, (hcl cls).mp hclv]
        · simp only [hclv, Bool.false_eq_true, if_false, cipServiceDirectSpec,
            CipData.service, hc, ha]
          constructor
          · intro h01
            exact absurd h01 (by norm_num)
          · rintro ⟨_, hex, _⟩
            exact absurd ((hcl cls).mpr hex) hclv
      | some attr =>
        by_cases hclv : enip_cip_has_class cipdir cls = true
        · simp only [hclv, if_true]
          rw [hat attr]
          simp only [cipServiceDirectSpec, CipData.service, hc, ha]
          constructor
          · intro hx
            exact ⟨trivial, (hcl cls).mp hclv, hx⟩
          · rintro ⟨_, _, hx⟩
            exact hx
        · simp only [hclv, Bool.false_eq_true, if_false, cipServiceDirectSpec,
            CipData.service, hc, ha]
          constructor
          · intro h01
            exact absurd h01 (by norm_num)
          · rintro ⟨_, hex, _⟩
            exact absurd ((hcl cls).mpr hex) hclv
  · have hnm : sv ≠ CIP_MULTIPLE_SERVICE := h.resolve_left hs
    cases cipdir with
    | none => simp [enip_cip_match_service, hs, hnm, cipServiceDirectSpec, CipData.service]
    | request path payload =>
      cases payload <;>
        simp [enip_cip_match_service, hs, hnm, cipServiceDirectSpec, CipData.service]
    | response st ext payload =>
      cases payload <;>
        simp [enip_cip_match_service, hs, hnm, cipServiceDirectSpec, CipData.service]

/-- Witness for C2: a request for service 5 with a class-7 path segment and
the attribute 9 in a GetAttributeList payload satisfies both the matcher and
the spec-side direct-check description. -/
theorem enip_claim2_direct_service_check_witness :
    (enip_cip_match_service
        (.mk 5 (.request [⟨32, 7⟩] (.getAttributeList [3, 9])))
        ⟨5, some 7, some 9⟩ = 1 ↔
      cipServiceDirectSpec
        (.mk 5 (.request [⟨32, 7⟩] (.getAttributeList [3, 9])))
        ⟨5, some 7, some 9⟩) ∧
    enip_cip_match_service
        (.mk 5 (.request [⟨32, 7⟩] (.getAttributeList [3, 9])))
        ⟨5, some 7, some 9⟩ = 1 := by
  refine ⟨enip_claim2_direct_service_check
    (.mk 5 (.request [⟨32, 7⟩] (.getAttributeList [3, 9])))
    ⟨5, some 7, some 9⟩ (Or.inl rfl), rfl⟩

/-- Spec-side well-formedness for C9 at the payload level: the ids stored in
a GetAttributeList / SetAttributeList payload fit in 16 bits, as the Rust
`u16` typing guarantees. -/
def requestPayloadIdsFit16 : EnipCipRequestPayload → Bool
  | .getAttributeList attr_list => attr_list.all (fun a => decide (a < 2 ^ 16))
  | .setAttributeList (some val) => decide (val < 2 ^ 16)
  | _ => true

mutual

theorem enip_cip_match_attribute_eq_segment12 (d : CipData) (ctx : DetectUintData)
    (hctx : ∀ v, v < 2 ^ 16 → detect_match_uint ctx v = false)
    (hfit : cipAttrIdsFit16 d = true) :
    enip_cip_match_attribute d ctx = enip_cip_match_segment d ctx 12 := by
  obtain ⟨sv, cipdir⟩ := d
  cases cipdir with
  | none => simp [enip_cip_match_attribute, enip_cip_match_segment]
  | response st ext payload =>
    cases payload <;> simp [enip_cip_match_attribute, enip_cip_match_segment]
  | request path payload =>
    by_cases hp : (path.any fun seg => seg.segment_type >>> 2 == 12 && detect_match_uint ctx seg.value) = true
    · cases payload <;> simp [enip_cip_match_attribute, enip_cip_match_segment, hp]
    · cases payload with
      | getAttributeList attr_list =>
        simp only [cipAttrIdsFit16, List.all_eq_true, decide_eq_true_eq] at hfit
        have hany : (attr_list.any fun attrg => detect_match_uint ctx attrg) = false := by
          simp only [List.any_eq_false]
          intro a ha
          simp [hctx a (hfit a ha)]
        simp [enip_cip_match_attribute, enip_cip_match_segment, hp, hany]
      | setAttributeList first_attr =>
        cases first_attr with
        | none => simp [enip_cip_match_attribute, enip_cip_match_segment, hp]
        | some val =>
          simp only [cipAttrIdsFit16, decide_eq_true_eq] at hfit
          simp [enip_cip_match_attribute, enip_cip_match_segment, hp, hctx val hfit]
      | multiple m =>
        simp only [cipAttrIdsFit16] at hfit
        simp only [enip_cip_match_attribute, enip_cip_match_segment, hp,
          Bool.false_eq_true, if_false]
        exact enip_cip_match_attribute_eq_segment12_list m ctx hctx hfit
      | other => simp [enip_cip_match_attribute, enip_cip_match_segment, hp]

theorem enip_cip_match_attribute_eq_segment12_list (l : List CipData) (ctx : DetectUintData)
    (hctx : ∀ v, v < 2 ^ 16 → detect_match_uint ctx v = false)
    (hfit : cipAttrIdsFit16_list l = true) :
    enip_cip_match_attribute_list l ctx = enip_cip_match_segment_list l ctx 12 := by
  cases l with
  | nil => rfl
  | cons p rest =>
    simp only [cipAttrIdsFit16_list, Bool.and_eq_true] at hfit
    simp only [enip_cip_match_attribute_list, enip_cip_match_segment_list]
    rw [enip_cip_match_attribute_eq_segment12 p ctx hctx hfit.1,
      enip_cip_match_attribute_eq_segment12_list rest ctx hctx hfit.2]

end

/-- C9: an attribute value strictly greater than 0xFFFF can never be matched
through the GetAttributeList / SetAttributeList fallbacks, whose stored ids
are 16-bit and widened to 32 bits before comparison; it can only match via a
request-path segment with `segment_type >> 2 == 12`. This holds for the
cip_service attribute constraint (enip_cip_has_attribute) and for the
standalone cip_attribute matcher, which then coincides with the pure
segment-12 matcher. -/
theorem enip_claim9_attribute_16bit_fallback :
    (∀ (path : List CipSegment) (payload : EnipCipRequestPayload) (attr : Nat),
      0xFFFF < attr → requestPayloadIdsFit16 payload = true →
      (enip_cip_has_attribute (.request path payload) attr = 1 ↔
        ∃ seg ∈ path, seg.segment_type >>> 2 = 12 ∧ seg.value = attr)) ∧
    (∀ (d : CipData) (ctx : DetectUintData),
      (∀ v, v < 2 ^ 16 → detect_match_uint ctx v = false) →
      cipAttrIdsFit16 d = true →
      enip_cip_match_attribute d ctx = enip_cip_match_segment d ctx 12) := by
  constructor
  · intro path payload attr hbig hfit
    have hiff := enip_cip_has_attribute_eq_one_iff (.mk 0 (.request path payload)) attr
    simp only [CipData.cipdir, requestPath, requestPayload, Option.some.injEq] at hiff
    rw [hiff]
    constructor
    · rintro (hseg | ⟨l, hl, hmem⟩ | hset)
      · exact hseg
      · subst hl
        simp only [requestPayloadIdsFit16, List.all_eq_true, decide_eq_true_eq] at hfit
        exact absurd (hfit attr hmem) (by omega)
      · subst hset
        simp only [requestPayloadIdsFit16, decide_eq_true_eq] at hfit
        exact absurd hfit (by omega)
    · intro hseg
      exact Or.inl hseg
  · exact enip_cip_match_attribute_eq_segment12

/-- Witness for C9: attribute 0x10000 matches only through the type-12 path
segment even though 0x10000 appears nowhere in the attribute list, and the
standalone attribute matcher with a predicate accepting only values above
0xFFFF coincides with the segment-12 matcher on a GetAttributeList request. -/
theorem enip_claim9_attribute_16bit_fallback_witness :
    (enip_cip_has_attribute
        (.request [⟨48, 0x10000⟩] (.getAttributeList [5])) 0x10000 = 1 ↔
      ∃ seg ∈ [(⟨48, 0x10000⟩ : CipSegment)],
        seg.segment_type >>> 2 = 12 ∧ seg.value = 0x10000) ∧
    enip_cip_match_attribute
        (.mk 3 (.request [⟨48, 0x10000⟩] (.getAttributeList [5])))
        (fun v => decide (0xFFFF < v)) =
      enip_cip_match_segment
        (.mk 3 (.request [⟨48, 0x10000⟩] (.getAttributeList [5])))
        (fun v => decide (0xFFFF < v)) 12 := by
  constructor
  · exact enip_claim9_attribute_16bit_fallback.1 [⟨48, 0x10000⟩] (.getAttributeList [5])
      0x10000 (by norm_num) (by decide)
  · exact enip_claim9_attribute_16bit_fallback.2
      (.mk 3 (.request [⟨48, 0x10000⟩] (.getAttributeList [5])))
      (fun v => decide (0xFFFF < v))
      (fun v hv => by simp [detect_match_uint]; omega) (by decide)

theorem opt_char_cons_self (c : Char) (t : List Char) : opt_char c (c :: t) = (some c, t) := by
  simp [opt_char]

theorem opt_char_cons_ne (c c2 : Char) (t : List Char) (h : c2 ≠ c) :
    opt_char c (c2 :: t) = (Option.none, c2 :: t) := by
  simp [opt_char, h]

theorem opt_char_nil (c : Char) : opt_char c [] = (Option.none, []) := rfl

/-- C3: for every well-formed input whose attribute field carries a leading
`!`, parsing succeeds and the resulting predicate has no attribute constraint
at all (rather than an inverted one); in particular parsing "1,2,!3" yields
service 1, class 2 and no attribute constraint. -/
theorem enip_claim3_negated_attribute_dropped :
    (∀ ds1 ds2 ds3 : List Char, ds1 ≠ [] → ds2 ≠ [] → ds3 ≠ [] →
      (∀ c ∈ ds1, c.isDigit = true) → (∀ c ∈ ds2, c.isDigit = true) →
      (∀ c ∈ ds3, c.isDigit = true) →
      digitsVal ds1 < 0x80 → digitsVal ds2 < 2 ^ 32 → digitsVal ds3 < 2 ^ 32 →
      enip_parse_cip_service (ds1 ++ (',' :: (ds2 ++ (',' :: ('!' :: ds3))))) =
        some ([], ⟨digitsVal ds1, some (digitsVal ds2), Option.none⟩)) ∧
    enip_parse_cip_service ("1,2,!3".data) = some ([], ⟨1, some 2, Option.none⟩) := by
  constructor
  · intro ds1 ds2 ds3 h1ne h2ne h3ne h1d h2d h3d hs1 hs2 hs3
    have hd1 : headIsNot Char.isDigit (',' :: (ds2 ++ (',' :: ('!' :: ds3)))) := by
      intro c hc
      simp only [List.head?_cons, Option.some.injEq] at hc
      subst hc
      decide
    have hd2 : headIsNot Char.isDigit (',' :: ('!' :: ds3)) := by
      intro c hc
      simp only [List.head?_cons, Option.some.injEq] at hc
      subst hc
      decide
    have hsp1 : headIsNot isSpaceChar (',' :: (ds2 ++ (',' :: ('!' :: ds3)))) := by
      intro c hc
      simp only [List.head?_cons, Option.some.injEq] at hc
      subst hc
      decide
    have hsp2 : headIsNot isSpaceChar (',' :: ('!' :: ds3)) := by
      intro c hc
      simp only [List.head?_cons, Option.some.injEq] at hc
      subst hc
      decide
    have hsp3 : headIsNot isSpaceChar ('!' :: ds3) := by
      intro c hc
      simp only [List.head?_cons, Option.some.injEq] at hc
      subst hc
      decide
    have e0 : space0 (ds1 ++ (',' :: (ds2 ++ (',' :: ('!' :: ds3))))) =
        ds1 ++ (',' :: (ds2 ++ (',' :: ('!' :: ds3)))) :=
      space0_eq_self_of_digits ds1 _ h1ne h1d
    have e1 : digit1 (ds1 ++ (',' :: (ds2 ++ (',' :: ('!' :: ds3))))) =
        some (ds1, ',' :: (ds2 ++ (',' :: ('!' :: ds3)))) :=
      digit1_append _ _ h1ne h1d hd1
    have hle : digitsVal ds1 ≤ 255 := by omega
    have e2 : space0 (',' :: (ds2 ++ (',' :: ('!' :: ds3)))) =
        ',' :: (ds2 ++ (',' :: ('!' :: ds3))) := space0_eq_self _ hsp1
    have e3 : opt_char ',' (',' :: (ds2 ++ (',' :: ('!' :: ds3)))) =
        (some ',', ds2 ++ (',' :: ('!' :: ds3))) := opt_char_cons_self _ _
    have e4 : space0 (ds2 ++ (',' :: ('!' :: ds3))) = ds2 ++ (',' :: ('!' :: ds3)) :=
      space0_eq_self_of_digits ds2 _ h2ne h2d
    have e5 : digit1 (ds2 ++ (',' :: ('!' :: ds3))) = some (ds2, ',' :: ('!' :: ds3)) :=
      digit1_append _ _ h2ne h2d hd2
    have e6 : space0 (',' :: ('!' :: ds3)) = ',' :: ('!' :: ds3) := space0_eq_self _ hsp2
    have e7 : opt_char ',' (',' :: ('!' :: ds3)) = (some ',', '!' :: ds3) :=
      opt_char_cons_self _ _
    have e8 : space0 ('!' :: ds3) = '!' :: ds3 := space0_eq_self _ hsp3
    have e9 : opt_char '!' ('!' :: ds3) = (some '!', ds3) := opt_char_cons_self _ _
    have e10 : digit1 ds3 = some (ds3, []) := by
      have h := digit1_append ds3 [] h3ne h3d (by intro c hc; simp at hc)
      simpa using h
    have e11 : ∀ dt : DetectCipServiceData, enip_parse_end [] dt = some ([], dt) :=
      fun dt => rfl
    simp only [enip_parse_cip_service, e0, e1, e2, e3, e4, e5, e6, e7, e8, e9, e10, e11,
      hle, hs1, hs2, hs3, if_true, Option.isSome_some]
  · rfl

/-- Witness for C3: the single-digit instance "7,8,!9" parses to service 7,
class 8 and no attribute constraint. -/
theorem enip_claim3_negated_attribute_dropped_witness :
    enip_parse_cip_service (['7'] ++ (',' :: (['8'] ++ (',' :: ('!' :: ['9']))))) =
      some ([], ⟨digitsVal ['7'], some (digitsVal ['8']), Option.none⟩) := by
  exact enip_claim3_negated_attribute_dropped.1 ['7'] ['8'] ['9']
    (by decide) (by decide) (by decide) (by decide) (by decide) (by decide)
    (by decide) (by decide) (by decide)

theorem digit1_cons_not_digit (c : Char) (rest : List Char) (h : c.isDigit = false) :
    digit1 (c :: rest) = Option.none := by
  simp [digit1, List.takeWhile_cons, h]

theorem enip_parse_end_cons (c : Char) (rest : List Char) (dt : DetectCipServiceData)
    (h : isSpaceChar c = false) : enip_parse_end (c :: rest) dt = Option.none := by
  have hsp : space0 (c :: rest) = c :: rest := by
    apply space0_eq_self
    intro c2 hc2
    simp only [List.head?_cons, Option.some.injEq] at hc2
    subst hc2
    exact h
  simp [enip_parse_end, hsp]

/-- C7: parsing the compound cip_service predicate fails whenever the service
digits denote a value of 0x80 or more (including u8 overflow), whenever a
numeric field overflows its type or a non-digit stands where digits are
required, and whenever non-whitespace input remains after the optional
fields; in particular "202", "123,toto" and "1,2,3,4" all fail. -/
theorem enip_claim7_parse_failures :
    (∀ ds rest : List Char, ds ≠ [] → (∀ c ∈ ds, c.isDigit = true) →
      headIsNot Char.isDigit rest → 0x80 ≤ digitsVal ds →
      enip_parse_cip_service (ds ++ rest) = Option.none) ∧
    (∀ (ds : List Char) (c : Char) (rest : List Char), ds ≠ [] →
      (∀ c2 ∈ ds, c2.isDigit = true) → digitsVal ds < 0x80 →
      c.isDigit = false → isSpaceChar c = false → c ≠ ',' →
      enip_parse_cip_service (ds ++ (c :: rest)) = Option.none) ∧
    (∀ (ds : List Char) (c : Char) (rest : List Char), ds ≠ [] →
      (∀ c2 ∈ ds, c2.isDigit = true) → digitsVal ds < 0x80 →
      c.isDigit = false → isSpaceChar c = false →
      enip_parse_cip_service (ds ++ (',' :: (c :: rest))) = Option.none) ∧
    (∀ (ds ds2 rest : List Char), ds ≠ [] → (∀ c ∈ ds, c.isDigit = true) →
      digitsVal ds < 0x80 → ds2 ≠ [] → (∀ c ∈ ds2, c.isDigit = true) →
      headIsNot Char.isDigit rest → 2 ^ 32 ≤ digitsVal ds2 →
      enip_parse_cip_service (ds ++ (',' :: (ds2 ++ rest))) = Option.none) ∧
    enip_parse_cip_service ("202".data) = Option.none ∧
    enip_parse_cip_service ("123,toto".data) = Option.none ∧
    enip_parse_cip_service ("1,2,3,4".data) = Option.none := by
  refine ⟨?_, ?_, ?_, ?_, rfl, rfl, rfl⟩
  · intro ds rest hne hd hrest hbig
    have e0 : space0 (ds ++ rest) = ds ++ rest := space0_eq_self_of_digits ds _ hne hd
    have e1 : digit1 (ds ++ rest) = some (ds, rest) := digit1_append _ _ hne hd hrest
    by_cases hle : digitsVal ds ≤ 255
    · have hnotlt : ¬(digitsVal ds < 0x80) := by omega
      simp [enip_parse_cip_service, e0, e1, hle, hnotlt]
    · simp [enip_parse_cip_service, e0, e1, hle]
  · intro ds c rest hne hd hlt hcd hcs hcc
    have e0 : space0 (ds ++ (c :: rest)) = ds ++ (c :: rest) :=
      space0_eq_self_of_digits ds _ hne hd
    have e1 : digit1 (ds ++ (c :: rest)) = some (ds, c :: rest) := by
      apply digit1_append _ _ hne hd
      intro c2 hc2
      simp only [List.head?_cons, Option.some.injEq] at hc2
      subst hc2
      exact hcd
    have hle : digitsVal ds ≤ 255 := by omega
    have e2 : space0 (c :: rest) = c :: rest := by
      apply space0_eq_self
      intro c2 hc2
      simp only [List.head?_cons, Option.some.injEq] at hc2
      subst hc2
      exact hcs
    have e3 : opt_char ',' (c :: rest) = (Option.none, c :: rest) :=
      opt_char_cons_ne _ _ _ hcc
    have e4 := enip_parse_end_cons c rest
      ⟨digitsVal ds, Option.none, Option.none⟩ hcs
    simp [enip_parse_cip_service, e0, e1, e2, e3, e4, hle, hlt]
  · intro ds c rest hne hd hlt hcd hcs
    have e0 : space0 (ds ++ (',' :: (c :: rest))) = ds ++ (',' :: (c :: rest)) :=
      space0_eq_self_of_digits ds _ hne hd
    have e1 : digit1 (ds ++ (',' :: (c :: rest))) = some (ds, ',' :: (c :: rest)) := by
      apply digit1_append _ _ hne hd
      intro c2 hc2
      simp only [List.head?_cons, Option.some.injEq] at hc2
      subst hc2
      decide
    have hle : digitsVal ds ≤ 255 := by omega
    have e2 : space0 (',' :: (c :: rest)) = ',' :: (c :: rest) := by
      apply space0_eq_self
      intro c2 hc2
      simp only [List.head?_cons, Option.some.injEq] at hc2
      subst hc2
      decide
    have e3 : opt_char ',' (',' :: (c :: rest)) = (some ',', c :: rest) :=
      opt_char_cons_self _ _
    have e4 : space0 (c :: rest) = c :: rest := by
      apply space0_eq_self
      intro c2 hc2
      simp only [List.head?_cons, Option.some.injEq] at hc2
      subst hc2
      exact hcs
    have e5 : digit1 (c :: rest) = Option.none := digit1_cons_not_digit c rest hcd
    simp [enip_parse_cip_service, e0, e1, e2, e3, e4, e5, hle, hlt]
  · intro ds ds2 rest hne hd hlt h2ne h2d hrest hbig
    have e0 : space0 (ds ++ (',' :: (ds2 ++ rest))) = ds ++ (',' :: (ds2 ++ rest)) :=
      space0_eq_self_of_digits ds _ hne hd
    have e1 : digit1 (ds ++ (',' :: (ds2 ++ rest))) = some (ds, ',' :: (ds2 ++ rest)) := by
      apply digit1_append _ _ hne hd
      intro c2 hc2
      simp only [List.head?_cons, Option.some.injEq] at hc2
      subst hc2
      decide
    have hle : digitsVal ds ≤ 255 := by omega
    have e2 : space0 (',' :: (ds2 ++ rest)) = ',' :: (ds2 ++ rest) := by
      apply space0_eq_self
      intro c2 hc2
      simp only [List.head?_cons, Option.some.injEq] at hc2
      subst hc2
      decide
    have e3 : opt_char ',' (',' :: (ds2 ++ rest)) = (some ',', ds2 ++ rest) :=
      opt_char_cons_self _ _
    have e4 : space0 (ds2 ++ rest) = ds2 ++ rest := space0_eq_self_of_digits ds2 _ h2ne h2d
    have e5 : digit1 (ds2 ++ rest) = some (ds2, rest) := digit1_append _ _ h2ne h2d hrest
    have hno : ¬(digitsVal ds2 < 2 ^ 32) := by omega
    have hno2 : ¬(digitsVal ds2 < 4294967296) := by omega
    simp [enip_parse_cip_service, e0, e1, e2, e3, e4, e5, hle, hlt, hno, hno2]

/-- Witness for C7: the general conjuncts applied to "202" (service out of
range), "1x" (trailing non-whitespace), "1,x" (non-digit class) and a
five-digit-exponent overflowing class value. -/
theorem enip_claim7_parse_failures_witness :
    enip_parse_cip_service (['2', '0', '2'] ++ []) = Option.none ∧
    enip_parse_cip_service (['1'] ++ ('x' :: [])) = Option.none ∧
    enip_parse_cip_service (['1'] ++ (',' :: ('x' :: []))) = Option.none ∧
    enip_parse_cip_service
      (['1'] ++ (',' :: (['4', '2', '9', '4', '9', '6', '7', '2', '9', '6'] ++ []))) =
      Option.none := by
  refine ⟨?_, ?_, ?_, ?_⟩
  · exact enip_claim7_parse_failures.1 ['2', '0', '2'] [] (by decide) (by decide)
      (by intro c hc; simp at hc) (by decide)
  · exact enip_claim7_parse_failures.2.1 ['1'] 'x' [] (by decide) (by decide) (by decide)
      (by decide) (by decide) (by decide)
  · exact enip_claim7_parse_failures.2.2.1 ['1'] 'x' [] (by decide) (by decide) (by decide)
      (by decide) (by decide)
  · exact enip_claim7_parse_failures.2.2.2.1 ['1']
      ['4', '2', '9', '4', '9', '6', '7', '2', '9', '6'] [] (by decide) (by decide)
      (by decide) (by decide) (by decide) (by intro c hc; simp at hc) (by decide)

end EnipDetect
